import Mathlib

set_option maxRecDepth 100000

/- Verification of the ABI-to-MCP/GPT schema compiler (src/lib/abi-to-mcp.ts),
   the schema-generation endpoint (src/pages/api/contracts/[id]/generate-schemas.ts)
   and the invocation dispatcher
   (src/pages/api/contract-server/[address]/[action].ts) of evm-tensorkit.

   Strings are modelled by Lean `String`; JS objects by structures / association
   lists; JSON values by the `JValue` inductive.  The JSON serialisation round
   trips in the source (stringify followed by parse) are the identity on the
   plain records involved and are elided. -/

/-- JS `String.prototype.includes`: substring containment test. -/
def jsIncludes (s sub : String) : Bool :=
  decide (sub.data <:+: s.data)

/-- Helper for `removeFirst`: removes the first occurrence of `pat`. -/
def removeFirstAux (pat : List Char) : List Char → List Char
  | [] => []
  | c :: rest =>
    if pat.isPrefixOf (c :: rest) then (c :: rest).drop pat.length
    else c :: removeFirstAux pat rest

/-- JS `String.prototype.replace` with a plain-string pattern and an empty
replacement string: removes the first occurrence of the pattern only. -/
def removeFirst (s pat : String) : String :=
  String.mk (removeFirstAux pat.data s.data)

mutual

/-- An `ABIInput`/`ABIOutput` entry of abi-to-mcp.ts: a name, a Solidity type
tag, and optional nested `components` (absent components ≡ empty list, as the
source only ever tests `components && components.length > 0`). -/
inductive ABIParam where
  | mk (name : String) (type : String) (components : ABIParamList)

/-- List of `ABIParam` (mutual with `ABIParam` so that recursion over the
nested structure stays structural). -/
inductive ABIParamList where
  | nil
  | cons (head : ABIParam) (tail : ABIParamList)

end

def ABIParam.name : ABIParam → String
  | .mk n _ _ => n

def ABIParam.type : ABIParam → String
  | .mk _ t _ => t

def ABIParam.components : ABIParam → ABIParamList
  | .mk _ _ c => c

def ABIParamList.length : ABIParamList → Nat
  | .nil => 0
  | .cons _ tail => 1 + tail.length

/-- An `ABIFunction` entry of abi-to-mcp.ts. -/
structure ABIFunction where
  name : String
  type : String
  inputs : List ABIParam
  outputs : List ABIParam
  stateMutability : String

/-- `solTypeToJsonType` of abi-to-mcp.ts: maps Solidity types to JSON schema
types by substring tests, in source order. -/
def solTypeToJsonType (solType : String) : String :=
  if jsIncludes solType "int" then "integer"
  else if jsIncludes solType "bool" then "boolean"
  else if jsIncludes solType "address" then "string"
  else if jsIncludes solType "string" then "string"
  else if jsIncludes solType "bytes" then "string"
  else if jsIncludes solType "[]" then "array"
  else "string"

/-- `generateParamDescription` of abi-to-mcp.ts. -/
def generateParamDescription (name type : String) : String :=
  if jsIncludes type "address" then "Ethereum address for " ++ name
  else if jsIncludes type "uint256" then "Numeric value for " ++ name
  else if jsIncludes type "bool" then "Boolean flag for " ++ name
  else if jsIncludes type "string" then "String value for " ++ name
  else if jsIncludes type "bytes" then "Bytes data for " ++ name
  else "Parameter " ++ name ++ " of type " ++ type

/-- The `name (type)` parameter list string of `generateFunctionDescription`. -/
def paramListString (inputs : List ABIParam) : String :=
  String.intercalate ", " (inputs.map fun input => input.name ++ " (" ++ input.type ++ ")")

/-- The `name (type)` return list string of `generateFunctionDescription`;
an empty output name is replaced by `return` (JS `output.name || 'return'`). -/
def returnListString (outputs : List ABIParam) : String :=
  String.intercalate ", " (outputs.map fun output =>
    (if output.name = "" then "return" else output.name) ++ " (" ++ output.type ++ ")")

/-- The part of `generateFunctionDescription` built before the state-mutability
clause is appended. -/
def descriptionBase (func : ABIFunction) : String :=
  let d1 := "Calls the " ++ func.name ++ " function"
  let d2 :=
    if func.inputs.length > 0 then d1 ++ " with parameters: " ++ paramListString func.inputs
    else d1
  if func.outputs.length > 0 then d2 ++ ". Returns: " ++ returnListString func.outputs
  else d2

/-- The state-mutability clause appended at the end of
`generateFunctionDescription` (source lines 117-124). -/
def mutabilityClause (func : ABIFunction) : String :=
  if func.stateMutability = "view" ∨ func.stateMutability = "pure" then
    ". This function does not modify blockchain state."
  else if func.stateMutability = "payable" then
    ". This function can receive Ether."
  else
    ". This function may modify blockchain state."

/-- `generateFunctionDescription` of abi-to-mcp.ts. -/
def generateFunctionDescription (func : ABIFunction) : String :=
  descriptionBase func ++ mutabilityClause func

/-- An `MCPParameter` of abi-to-mcp.ts.  The `items` field carries the
`{type, properties?}` pair; `required` and `enum` are never assigned by the
source and are omitted. -/
inductive MCPParameter where
  | mk (name : String) (type : String) (description : String)
       (properties : Option (List (String × MCPParameter)))
       (items : Option (String × Option (List (String × MCPParameter))))

def MCPParameter.name : MCPParameter → String
  | .mk n _ _ _ _ => n

def MCPParameter.type : MCPParameter → String
  | .mk _ t _ _ _ => t

def MCPParameter.description : MCPParameter → String
  | .mk _ _ d _ _ => d

def MCPParameter.properties : MCPParameter → Option (List (String × MCPParameter))
  | .mk _ _ _ p _ => p

def MCPParameter.items : MCPParameter → Option (String × Option (List (String × MCPParameter)))
  | .mk _ _ _ _ i => i

mutual

/-- `processABIParameter` of abi-to-mcp.ts.  The source mutates `mcpParam`
sequentially: the array branch (line 143) first sets `type := 'array'` and a
`{type: stripped-element-type}` items object; the components branch
(line 151) then overwrites `items` (array-of-struct case) or sets
`type := 'object'` and `properties` (plain struct case). -/
def processABIParameter : ABIParam → MCPParameter
  | .mk pname ptype comps =>
    let name := if pname = "" then "param" else pname
    let jsonType := solTypeToJsonType ptype
    let ty1 := if jsIncludes ptype "[]" then "array" else jsonType
    let items1 : Option (String × Option (List (String × MCPParameter))) :=
      if jsIncludes ptype "[]" then some (solTypeToJsonType (removeFirst ptype "[]"), none)
      else none
    if comps.length > 0 then
      if jsIncludes ptype "[]" then
        .mk name ty1 (generateParamDescription name ptype) none
          (some ("object", some (processComponents comps)))
      else
        .mk name "object" (generateParamDescription name ptype)
          (some (processComponents comps)) items1
    else
      .mk name ty1 (generateParamDescription name ptype) none items1

/-- The `components.forEach` loops of `processABIParameter`: each component is
processed recursively and stored under its raw `component.name` key. -/
def processComponents : ABIParamList → List (String × MCPParameter)
  | .nil => []
  | .cons c cs => (c.name, processABIParameter c) :: processComponents cs

end

/-- The `parameters` object of an `MCPAction`. -/
structure MCPParameters where
  type : String
  properties : List (String × MCPParameter)
  required : List String

/-- An `MCPAction` of abi-to-mcp.ts. -/
structure MCPAction where
  name : String
  description : String
  parameters : MCPParameters

/-- `abiFunctionToMCPAction` of abi-to-mcp.ts: the `inputs.forEach` loop
stores each processed input under its name and pushes the name onto
`required`, in declaration order. -/
def abiFunctionToMCPAction (func : ABIFunction) : MCPAction :=
  { name := func.name
    description := generateFunctionDescription func
    parameters :=
      { type := "object"
        properties := func.inputs.map fun input => (input.name, processABIParameter input)
        required := func.inputs.map fun input => input.name } }

/-- The filter step of `abiToMCPSchema` (abi-to-mcp.ts lines 226-230): keeps
`type === 'function'` entries and drops entries with
`stateMutability === 'view'` and no inputs. -/
def schemaFilter (abi : List ABIFunction) : List ABIFunction :=
  abi.filter fun item =>
    decide (item.type = "function" ∧ ¬(item.stateMutability = "view" ∧ item.inputs.length = 0))

/-- `abiToMCPSchema` of abi-to-mcp.ts (modelled on the parsed ABI value):
filter, then convert each retained function. -/
def abiToMCPSchema (abi : List ABIFunction) : List MCPAction :=
  (schemaFilter abi).map abiFunctionToMCPAction

/-- A `GPTAction` of abi-to-mcp.ts: the tool-call envelope. -/
structure GPTAction where
  type : String
  function : MCPAction

/-- `mcpActionToGPTAction` of abi-to-mcp.ts. -/
def mcpActionToGPTAction (mcpAction : MCPAction) : GPTAction :=
  { type := "function"
    function :=
      { name := mcpAction.name
        description := mcpAction.description
        parameters := mcpAction.parameters } }

/-- `abiToGPTActionSchema` of abi-to-mcp.ts: parses the MCP schema back and
maps `mcpActionToGPTAction` over it. -/
def abiToGPTActionSchema (abi : List ABIFunction) : List GPTAction :=
  (abiToMCPSchema abi).map mcpActionToGPTAction

/-- One stored custom function description: a function-level description and
per-parameter descriptions (`CustomFunctionDescription` of
ContractFunctionEditor.tsx / the `customFunctionDescriptions` JSON column). -/
structure CustomFunctionDescription where
  description : String
  inputs : List (String × String)

/-- The fields of the persisted contract record consumed by the
generate-schemas endpoint. -/
structure SmartContract where
  abiJson : List ABIFunction
  customFunctionDescriptions : List (String × CustomFunctionDescription)

/-- The schema-generation step of generate-schemas.ts (lines 42-46): both
schemas are computed from `contract.abiJson` alone; the stored
`customFunctionDescriptions` column is not consulted. -/
def generateSchemasHandler (contract : SmartContract) : List MCPAction × List GPTAction :=
  (abiToMCPSchema contract.abiJson, abiToGPTActionSchema contract.abiJson)

/-- A JSON value (request bodies and response bodies of the dispatcher).
`null` is a present value, distinct from an absent key. -/
inductive JValue where
  | null
  | bool (b : Bool)
  | num (n : Int)
  | str (s : String)
  | arr (elems : List JValue)
  | obj (fields : List (String × JValue))

/-- The literal marker the dispatcher greps for ([action].ts line 148). -/
def stateMarker : String := "does not modify blockchain state"

/-- [action].ts line 148:
`isStateChanging = !actionSchema.description.includes('does not modify blockchain state')`. -/
def isStateChanging (actionSchema : MCPAction) : Bool :=
  !(jsIncludes actionSchema.description stateMarker)

/-- Outcome of the dispatcher after the action has been resolved: either a
terminal HTTP response produced without touching the contract, or the
positional invocation of the named contract function. -/
inductive DispatchResult where
  | response (status : Nat) (body : JValue)
  | invoke (fn : String) (args : List (Option JValue))

/-- The simulation message of [action].ts line 156. -/
def simulationMessage : String :=
  "This is a simulation of a state-changing operation. In a production environment, this would require a signer with ETH to pay for gas."

/-- The 200 simulation-acknowledgement body of [action].ts lines 154-160. -/
def simulationBody (fn : String) (params : List (String × JValue)) : JValue :=
  .obj [("simulation", .bool true), ("message", .str simulationMessage),
        ("function", .str fn), ("parameters", .obj params),
        ("estimatedGas", .str "Not calculated in simulation mode")]

/-- [action].ts line 100:
`missingParams = requiredParams.filter(param => params[param] === undefined)`.
A key bound to JSON null is present, hence not missing. -/
def missingParamsOf (requiredParams : List String) (params : List (String × JValue)) : List String :=
  requiredParams.filter fun param => (params.lookup param).isNone

/-- [action].ts lines 96-169, from the resolved action schema onward: missing
required parameters give a 400; an action absent from the ethers contract
instance (`hasFn` abstracts `contractInstance.functions[action]`) gives a 404;
a state-changing action gives the 200 simulation acknowledgement without any
contract call; otherwise the function is invoked with the parameter values
extracted positionally in `required` order.  Provider construction and the
surrounding try/catch (which only fire on remote-call failures, after this
decision) are elided. -/
def dispatch (actionSchema : MCPAction) (hasFn : Bool) (params : List (String × JValue)) :
    DispatchResult :=
  let requiredParams := actionSchema.parameters.required
  let missingParams := missingParamsOf requiredParams params
  if missingParams.length > 0 then
    .response 400 (.obj [("error", .str "Missing required parameters"),
                         ("missingParams", .arr (missingParams.map JValue.str))])
  else if !hasFn then
    .response 404 (.obj [("error",
      .str ("Function \"" ++ actionSchema.name ++ "\" not found on contract"))])
  else if isStateChanging actionSchema then
    .response 200 (simulationBody actionSchema.name params)
  else
    .invoke actionSchema.name (requiredParams.map fun param => params.lookup param)

def statusOf : DispatchResult → Option Nat
  | .response s _ => some s
  | .invoke _ _ => none

def isInvoke : DispatchResult → Bool
  | .response _ _ => false
  | .invoke _ _ => true

/-- Key lookup in a JSON object value. -/
def objLookup : JValue → String → Option JValue
  | .obj fields, key => fields.lookup key
  | .null, _ => none
  | .bool _, _ => none
  | .num _, _ => none
  | .str _, _ => none
  | .arr _, _ => none

/-- A value returned by an ethers contract call: a BigNumber, a scalar, or a
(possibly nested) result array. -/
inductive EthResult where
  | bigNumber (n : Int)
  | str (s : String)
  | bool (b : Bool)
  | arr (elems : List EthResult)

/-- Minimal lowercase hex digits of a natural number (most significant first). -/
def natHexDigits : Nat → List Char :=
  Nat.toDigits 16

/-- Pads a hex digit string to even length, as ethers `BigNumber.toHexString`
does (zero renders as `0x00`). -/
def evenHexPad (digits : List Char) : List Char :=
  if digits.length % 2 = 1 then '0' :: digits else digits

/-- Models ethers `BigNumber.toHexString`: `0x`-prefixed, even-length,
lowercase hex; negative values carry a leading minus sign. -/
def bigToHexString (n : Int) : String :=
  if n < 0 then "-0x" ++ String.mk (evenHexPad (natHexDigits (-n).toNat))
  else "0x" ++ String.mk (evenHexPad (natHexDigits n.toNat))

/-- Models ethers `BigNumber.toString`: the decimal representation. -/
def intToDecimalString (n : Int) : String :=
  toString n

/-- Models ethers `utils.formatUnits(value, 0)`: with zero decimals the
multiplier is 1, so `formatFixed` returns the whole part only — the decimal
string. -/
def formatUnitsZero (n : Int) : String :=
  toString n

/-- The normalized result tree: the structured BigNumber object
`{type: 'BigNumber', hex, decimal, formatted}`, a raw passed-through value, or
a mapped result array. -/
inductive FmtResult where
  | bigStruct (typeTag hex decimal formatted : String)
  | raw (v : EthResult)
  | arr (elems : List FmtResult)

/-- The structured form built for a BigNumber ([action].ts lines 176-181). -/
def formatBigNumber (n : Int) : FmtResult :=
  .bigStruct "BigNumber" (bigToHexString n) (intToDecimalString n) (formatUnitsZero n)

/-- The result normalization of [action].ts lines 171-197: a top-level
BigNumber becomes the structured object; a top-level array is mapped
element-wise, reshaping BigNumber elements and passing every other element
through unchanged; everything else passes through unchanged. -/
def formatResult : EthResult → FmtResult
  | .bigNumber n => formatBigNumber n
  | .arr elems => .arr (elems.map fun item =>
      match item with
      | .bigNumber n => formatBigNumber n
      | other => .raw other)
  | .str s => .raw (.str s)
  | .bool b => .raw (.bool b)

-- Concrete fixtures

/-- ERC20-style `transfer(to, amount)`, nonpayable. -/
def transferFn : ABIFunction :=
  { name := "transfer", type := "function"
    inputs := [.mk "to" "address" .nil, .mk "amount" "uint256" .nil]
    outputs := [.mk "" "bool" .nil]
    stateMutability := "nonpayable" }

/-- ERC20-style `balanceOf(owner)`, view. -/
def balanceOfFn : ABIFunction :=
  { name := "balanceOf", type := "function"
    inputs := [.mk "owner" "address" .nil]
    outputs := [.mk "" "uint256" .nil]
    stateMutability := "view" }

/-- A zero-argument pure function. -/
def pureZeroFn : ABIFunction :=
  { name := "totalSupply", type := "function", inputs := []
    outputs := [.mk "" "uint256" .nil], stateMutability := "pure" }

/-- A zero-argument view function. -/
def viewZeroFn : ABIFunction :=
  { name := "symbol", type := "function", inputs := []
    outputs := [.mk "" "string" .nil], stateMutability := "view" }

/-- A zero-argument nonpayable function. -/
def nonpayableZeroFn : ABIFunction :=
  { name := "pause", type := "function", inputs := [], outputs := []
    stateMutability := "nonpayable" }

/-- A zero-argument payable function. -/
def payableZeroFn : ABIFunction :=
  { name := "deposit", type := "function", inputs := [], outputs := []
    stateMutability := "payable" }

/-- A non-function ABI entry. -/
def eventEntry : ABIFunction :=
  { name := "Transfer", type := "event"
    inputs := [.mk "sender" "address" .nil], outputs := [], stateMutability := "" }

/-- A minimal view function for witnesses. -/
def smallViewFn : ABIFunction :=
  { name := "f", type := "function", inputs := [], outputs := [], stateMutability := "view" }

/-- The stored override of the `transfer` example: function description
`Send tokens`, `to`-parameter description `Recipient`. -/
def overrideC1 : List (String × CustomFunctionDescription) :=
  [("transfer", { description := "Send tokens", inputs := [("to", "Recipient")] })]

/-- A stored contract whose override customizes `transfer`. -/
def contractC1 : SmartContract :=
  { abiJson := [transferFn], customFunctionDescriptions := overrideC1 }

-- Helper lemmas

/-- Decomposes an occurrence of `m` inside `a ++ b`: it lies in `a`, in `b`,
or spans the boundary with a nonempty suffix of `a` and a nonempty prefix of
`b`. -/
theorem infix_split {α : Type} {m a b : List α} (h : m <:+: a ++ b) :
    m <:+: a ∨ m <:+: b ∨
      ∃ m₁ m₂, m₁ ++ m₂ = m ∧ m₁ ≠ [] ∧ m₂ ≠ [] ∧ m₁ <:+ a ∧ m₂ <+: b := by
  obtain ⟨s, t, hst⟩ := h
  rcases List.append_eq_append_iff.mp hst with ⟨k, hk1, hk2⟩ | ⟨k, hk1, hk2⟩
  · left
    exact ⟨s, k, by rw [hk1]⟩
  · rcases List.append_eq_append_iff.mp hk1 with ⟨u, hu1, hu2⟩ | ⟨u, hu1, hu2⟩
    · rcases eq_or_ne u [] with hunil | hune
      · right; left
        subst hunil
        simp only [List.nil_append] at hu2
        exact ⟨[], t, by rw [hk2, hu2]; simp⟩
      · rcases eq_or_ne k [] with hknil | hkne
        · left
          subst hknil
          simp only [List.append_nil] at hu2
          exact ⟨s, [], by rw [hu1, hu2]; simp⟩
        · right; right
          exact ⟨u, k, hu2.symm, hune, hkne, ⟨s, hu1.symm⟩, ⟨t, hk2.symm⟩⟩
    · right; left
      exact ⟨u, t, by rw [hk2, hu2]⟩

/-- If `m` occurs neither in `a` nor in `b`, and `b` does not start with any
character of `m`, then `m` does not occur in `a ++ b`. -/
theorem not_infix_append {m a b : List Char}
    (hm : ¬ m <:+: a) (hb : ¬ m <:+: b)
    (hc : ∀ x ∈ m, b.head? ≠ some x) : ¬ m <:+: a ++ b := by
  intro h
  rcases infix_split h with h1 | h2 | ⟨m₁, m₂, hm12, _, hm₂ne, _, hpre⟩
  · exact hm h1
  · exact hb h2
  · obtain ⟨t, ht⟩ := hpre
    cases m₂ with
    | nil => exact hm₂ne rfl
    | cons x xs =>
      have hxm : x ∈ m := by
        rw [← hm12]; exact List.mem_append_right m₁ (List.mem_cons_self x xs)
      have hhead : b.head? = some x := by rw [← ht]; rfl
      exact hc x hxm hhead

/-- An occurrence in `b` is an occurrence in `a ++ b`. -/
theorem infix_append_of_infix_right {α : Type} {m a b : List α} (h : m <:+: b) :
    m <:+: a ++ b := by
  obtain ⟨s, t, hst⟩ := h
  exact ⟨a ++ s, t, by rw [← hst]; simp⟩

/-- If every required name has a present (possibly null) value, the missing
list is empty. -/
theorem missingParamsOf_eq_nil {requiredParams : List String} {params : List (String × JValue)}
    (h : ∀ p ∈ requiredParams, (params.lookup p).isSome = true) :
    missingParamsOf requiredParams params = [] := by
  rw [missingParamsOf, List.filter_eq_nil_iff]
  intro p hp
  have hs := h p hp
  cases hlk : params.lookup p with
  | none => rw [hlk] at hs; simp at hs
  | some v => simp [hlk]

/-- With no missing parameters and the function present on the contract, the
dispatcher reaches the mutability branch. -/
theorem dispatch_complete (schema : MCPAction) (params : List (String × JValue))
    (hmiss : missingParamsOf schema.parameters.required params = []) :
    dispatch schema true params =
      if isStateChanging schema then .response 200 (simulationBody schema.name params)
      else .invoke schema.name (schema.parameters.required.map fun p => params.lookup p) := by
  simp [dispatch, hmiss]

/-- With at least one missing parameter the dispatcher answers 400
immediately. -/
theorem dispatch_missing (schema : MCPAction) (hasFn : Bool) (params : List (String × JValue))
    (h : missingParamsOf schema.parameters.required params ≠ []) :
    dispatch schema hasFn params
      = .response 400 (.obj [("error", .str "Missing required parameters"),
          ("missingParams",
            .arr ((missingParamsOf schema.parameters.required params).map JValue.str))]) := by
  have hlen : 0 < (missingParamsOf schema.parameters.required params).length :=
    List.length_pos.mpr h
  simp [dispatch, hlen]

/-- Membership in the missing list is exactly: required and strictly absent. -/
theorem mem_missingParamsOf {requiredParams : List String} {params : List (String × JValue)}
    {p : String} :
    p ∈ missingParamsOf requiredParams params
      ↔ p ∈ requiredParams ∧ params.lookup p = none := by
  rw [missingParamsOf, List.mem_filter]
  constructor
  · rintro ⟨h1, h2⟩
    exact ⟨h1, Option.isNone_iff_eq_none.mp (by simpa using h2)⟩
  · rintro ⟨h1, h2⟩
    exact ⟨h1, by simp [h2]⟩

/-- Projects the element list out of a normalized array result. -/
def fmtElems : FmtResult → Option (List FmtResult)
  | .arr elems => some elems
  | .bigStruct _ _ _ _ => none
  | .raw _ => none

-- C1

/-- C1: the schema-generation endpoint computes both schemas from the ABI
alone; the stored custom-description override is ignored, so the `transfer`
action keeps the generated default description and parameter descriptions
instead of the stored `Send tokens` / `Recipient` texts. -/
theorem C1_override_ignored :
    ((generateSchemasHandler contractC1).1.map MCPAction.description)
      = ["Calls the transfer function with parameters: to (address), amount (uint256). Returns: return (bool). This function may modify blockchain state."]
    ∧ ("Calls the transfer function with parameters: to (address), amount (uint256). Returns: return (bool). This function may modify blockchain state." : String)
        ≠ "Send tokens"
    ∧ ((generateSchemasHandler contractC1).1.map
         (fun a => (a.parameters.properties.lookup "to").map MCPParameter.description))
        = [some "Ethereum address for to"]
    ∧ (some "Ethereum address for to" : Option String) ≠ some "Recipient"
    ∧ (∀ ov ov' : List (String × CustomFunctionDescription),
        generateSchemasHandler ⟨[transferFn], ov⟩ = generateSchemasHandler ⟨[transferFn], ov'⟩) := by
  exact ⟨rfl, by decide, rfl, by decide, fun ov ov' => rfl⟩

-- C2

/-- C2: evaluating the schema filter shows that a zero-argument pure function
is retained (the filter only excludes `view` with no inputs, though the claim
and the source comment say view/pure), while a zero-argument view function is
dropped, zero-argument nonpayable/payable functions are retained, and
non-function entries are dropped. -/
theorem C2_filter_eval :
    (abiToMCPSchema [pureZeroFn]).map MCPAction.name = ["totalSupply"]
    ∧ abiToMCPSchema [viewZeroFn] = []
    ∧ (abiToMCPSchema [nonpayableZeroFn]).map MCPAction.name = ["pause"]
    ∧ (abiToMCPSchema [payableZeroFn]).map MCPAction.name = ["deposit"]
    ∧ abiToMCPSchema [eventEntry] = [] := by
  exact ⟨rfl, rfl, rfl, rfl, rfl⟩

-- C3

/-- C3: provided the marker phrase does not already occur in the
description's base part (function/parameter names are identifiers, which
cannot spell it), the generated description contains the dispatcher's literal
marker iff the function is pure or view, and on a complete argument mapping
the dispatcher invokes the function exactly when the marker is present,
answering the 200 simulation acknowledgement otherwise. -/
theorem C3_marker_agreement (func : ABIFunction) (params : List (String × JValue))
    (hbase : ¬ stateMarker.data <:+: (descriptionBase func).data)
    (hargs : ∀ p ∈ (abiFunctionToMCPAction func).parameters.required,
      (params.lookup p).isSome = true) :
    (jsIncludes (generateFunctionDescription func) stateMarker = true
       ↔ (func.stateMutability = "pure" ∨ func.stateMutability = "view"))
    ∧ (jsIncludes (generateFunctionDescription func) stateMarker = true
       → dispatch (abiFunctionToMCPAction func) true params
           = .invoke func.name
               ((abiFunctionToMCPAction func).parameters.required.map fun p => params.lookup p))
    ∧ (jsIncludes (generateFunctionDescription func) stateMarker = false
       → dispatch (abiFunctionToMCPAction func) true params
           = .response 200 (simulationBody func.name params)) := by
  have hdata : (generateFunctionDescription func).data
      = (descriptionBase func).data ++ (mutabilityClause func).data := by
    rw [generateFunctionDescription, String.data_append]
  have hA : jsIncludes (generateFunctionDescription func) stateMarker = true
      ↔ (func.stateMutability = "pure" ∨ func.stateMutability = "view") := by
    rw [jsIncludes, decide_eq_true_iff, hdata]
    by_cases hvp : func.stateMutability = "view" ∨ func.stateMutability = "pure"
    · refine iff_of_true ?_ hvp.symm
      have hclause : mutabilityClause func
          = ". This function does not modify blockchain state." := by
        rw [mutabilityClause, if_pos hvp]
      rw [hclause]
      exact infix_append_of_infix_right (by decide)
    · have hne : ¬(func.stateMutability = "pure" ∨ func.stateMutability = "view") := by tauto
      refine iff_of_false ?_ hne
      by_cases hpay : func.stateMutability = "payable"
      · have hclause : mutabilityClause func = ". This function can receive Ether." := by
          rw [mutabilityClause, if_neg hvp, if_pos hpay]
        rw [hclause]
        exact not_infix_append hbase (by decide) (by decide)
      · have hclause : mutabilityClause func
            = ". This function may modify blockchain state." := by
          rw [mutabilityClause, if_neg hvp, if_neg hpay]
        rw [hclause]
        exact not_infix_append hbase (by decide) (by decide)
  have hmiss := missingParamsOf_eq_nil hargs
  have hd := dispatch_complete (abiFunctionToMCPAction func) params hmiss
  refine ⟨hA, ?_, ?_⟩
  · intro hmark
    have hsc : isStateChanging (abiFunctionToMCPAction func) = false := by
      rw [isStateChanging]
      have hm : jsIncludes (abiFunctionToMCPAction func).description stateMarker = true := hmark
      rw [hm]
      rfl
    rw [hd, if_neg (by simp [hsc])]
    rfl
  · intro hmark
    have hsc : isStateChanging (abiFunctionToMCPAction func) = true := by
      rw [isStateChanging]
      have hm : jsIncludes (abiFunctionToMCPAction func).description stateMarker = false := hmark
      rw [hm]
      rfl
    rw [hd, if_pos (by simp [hsc])]
    rfl

/-- Witness for C3 at a concrete view function with no parameters. -/
theorem C3_witness :
    (jsIncludes (generateFunctionDescription smallViewFn) stateMarker = true
       ↔ (smallViewFn.stateMutability = "pure" ∨ smallViewFn.stateMutability = "view"))
    ∧ (jsIncludes (generateFunctionDescription smallViewFn) stateMarker = true
       → dispatch (abiFunctionToMCPAction smallViewFn) true []
           = .invoke smallViewFn.name
               ((abiFunctionToMCPAction smallViewFn).parameters.required.map fun p =>
                 (([] : List (String × JValue)).lookup p)))
    ∧ (jsIncludes (generateFunctionDescription smallViewFn) stateMarker = false
       → dispatch (abiFunctionToMCPAction smallViewFn) true []
           = .response 200 (simulationBody smallViewFn.name [])) :=
  C3_marker_agreement smallViewFn [] (by decide) (by decide)

-- C4

/-- C4: for a state-changing action with all required arguments present, the
dispatcher answers 200 with the simulation body (simulation flag set, action
name and the supplied arguments echoed), never invokes the contract function
and never answers 500. -/
theorem C4_simulation_acknowledgement (schema : MCPAction) (params : List (String × JValue))
    (hmut : isStateChanging schema = true)
    (hargs : ∀ p ∈ schema.parameters.required, (params.lookup p).isSome = true) :
    dispatch schema true params = .response 200 (simulationBody schema.name params)
    ∧ statusOf (dispatch schema true params) = some 200
    ∧ statusOf (dispatch schema true params) ≠ some 500
    ∧ isInvoke (dispatch schema true params) = false
    ∧ objLookup (simulationBody schema.name params) "simulation" = some (.bool true)
    ∧ objLookup (simulationBody schema.name params) "function" = some (.str schema.name)
    ∧ objLookup (simulationBody schema.name params) "parameters" = some (.obj params) := by
  have hmiss := missingParamsOf_eq_nil hargs
  have hd : dispatch schema true params = .response 200 (simulationBody schema.name params) := by
    rw [dispatch_complete schema params hmiss, if_pos (by simp [hmut])]
  refine ⟨hd, by rw [hd]; rfl, by rw [hd]; simp [statusOf], by rw [hd]; rfl, rfl, rfl, rfl⟩

/-- Witness for C4: `transfer` with both arguments supplied. -/
theorem C4_witness :
    dispatch (abiFunctionToMCPAction transferFn) true
        [("to", .str "0xabc"), ("amount", .num 5)]
      = .response 200 (simulationBody "transfer" [("to", .str "0xabc"), ("amount", .num 5)])
    ∧ isInvoke (dispatch (abiFunctionToMCPAction transferFn) true
        [("to", .str "0xabc"), ("amount", .num 5)]) = false
    ∧ objLookup (simulationBody "transfer" [("to", .str "0xabc"), ("amount", .num 5)])
        "simulation" = some (.bool true) := by
  have h := C4_simulation_acknowledgement (abiFunctionToMCPAction transferFn)
      [("to", .str "0xabc"), ("amount", .num 5)] (by rfl) (by decide)
  exact ⟨h.1, h.2.2.2.1, h.2.2.2.2.1⟩

-- C5

/-- C5 (amended): a top-level BigNumber is reshaped into the tagged
hex/decimal/formatted object; scalars pass through; a top-level array is
normalized element-wise exactly one level deep — BigNumber elements are
reshaped, while any other element, in particular a nested array, passes
through raw. -/
theorem C5_single_level_normalization (n : Int) (s : String) (b : Bool)
    (elems inner : List EthResult) (i j : Nat)
    (hi : elems[i]? = some (.arr inner)) (hj : elems[j]? = some (.bigNumber n)) :
    formatResult (.bigNumber n)
        = .bigStruct "BigNumber" (bigToHexString n) (intToDecimalString n) (formatUnitsZero n)
    ∧ formatResult (.str s) = .raw (.str s)
    ∧ formatResult (.bool b) = .raw (.bool b)
    ∧ (fmtElems (formatResult (.arr elems))).map List.length = some elems.length
    ∧ ((fmtElems (formatResult (.arr elems))).bind fun ys => ys[i]?)
        = some (.raw (.arr inner))
    ∧ ((fmtElems (formatResult (.arr elems))).bind fun ys => ys[j]?)
        = some (.bigStruct "BigNumber" (bigToHexString n) (intToDecimalString n)
            (formatUnitsZero n)) := by
  refine ⟨rfl, rfl, rfl, by simp [formatResult, fmtElems], ?_, ?_⟩
  · simp only [formatResult, fmtElems, Option.some_bind, List.getElem?_map, hi]
    rfl
  · simp only [formatResult, fmtElems, Option.some_bind, List.getElem?_map, hj]
    rfl

/-- Witness for C5 at a concrete array with a nested array and a BigNumber. -/
theorem C5_witness :
    (fmtElems (formatResult (.arr [.bigNumber 7, .arr [.bigNumber 1]]))).map List.length
        = some 2
    ∧ ((fmtElems (formatResult (.arr [.bigNumber 7, .arr [.bigNumber 1]]))).bind
          fun ys => ys[1]?)
        = some (.raw (.arr [.bigNumber 1]))
    ∧ ((fmtElems (formatResult (.arr [.bigNumber 7, .arr [.bigNumber 1]]))).bind
          fun ys => ys[0]?)
        = some (.bigStruct "BigNumber" (bigToHexString 7) (intToDecimalString 7)
            (formatUnitsZero 7)) := by
  have h := C5_single_level_normalization 7 "" false [.bigNumber 7, .arr [.bigNumber 1]]
      [.bigNumber 1] 1 0 rfl rfl
  exact ⟨h.2.2.2.1, h.2.2.2.2.1, h.2.2.2.2.2⟩

/-- C5 counterexample: the normalization is not recursive — a BigNumber inside
a nested array is passed through raw, not reshaped as the claimed recursive
rule would produce. -/
theorem C5_counterexample :
    formatResult (.arr [.arr [.bigNumber 0]]) = .arr [.raw (.arr [.bigNumber 0])]
    ∧ FmtResult.raw (.arr [.bigNumber 0]) ≠ formatResult (.arr [.bigNumber 0]) := by
  refine ⟨rfl, fun h => ?_⟩
  exact FmtResult.noConfusion h

-- C6

/-- C6 (amended): a component-free field whose type tag contains the array
marker gets `type = array`, and its `items` carries only the scalar JSON type
of the tag with the first `[]` removed — computed by `solTypeToJsonType`,
whose integer/boolean/address/string/bytes substring checks come before the
array check, not by a recursive descriptor mapping. -/
theorem C6_array_items_single_level (pname ptype : String)
    (h : jsIncludes ptype "[]" = true) :
    (processABIParameter (.mk pname ptype .nil)).type = "array"
    ∧ (processABIParameter (.mk pname ptype .nil)).items
        = some (solTypeToJsonType (removeFirst ptype "[]"), none)
    ∧ (processABIParameter (.mk pname ptype .nil)).properties = none := by
  refine ⟨?_, ?_, ?_⟩ <;>
    simp [processABIParameter, h, ABIParamList.length, MCPParameter.type,
      MCPParameter.items, MCPParameter.properties]

/-- Witness for C6 at the nested array tag. -/
theorem C6_witness :
    (processABIParameter (.mk "a" "uint256[][]" .nil)).type = "array"
    ∧ (processABIParameter (.mk "a" "uint256[][]" .nil)).items
        = some (solTypeToJsonType (removeFirst "uint256[][]" "[]"), none)
    ∧ (processABIParameter (.mk "a" "uint256[][]" .nil)).properties = none :=
  C6_array_items_single_level "a" "uint256[][]" (by decide)

/-- C6 counterexample: for `uint256[][]` the `items` type is `integer`
(because `solTypeToJsonType` matches the `int` substring of `uint256[]`
first), while recursively mapping the stripped element tag `uint256[]` yields
type `array`; the items descriptor is not the recursive mapping. -/
theorem C6_counterexample :
    (processABIParameter (.mk "a" "uint256[][]" .nil)).type = "array"
    ∧ (processABIParameter (.mk "a" "uint256[][]" .nil)).items = some ("integer", none)
    ∧ (processABIParameter (.mk "a" "uint256[]" .nil)).type = "array"
    ∧ ((processABIParameter (.mk "a" "uint256[][]" .nil)).items).map Prod.fst
        ≠ some (processABIParameter (.mk "a" "uint256[]" .nil)).type := by
  exact ⟨rfl, rfl, rfl, by decide⟩

-- C7

/-- C7: when at least one required name is strictly absent from the argument
mapping, the dispatcher answers 400 with a `missingParams` list, the contract
call is not attempted, and a name is in that list exactly when it is required
and absent. -/
theorem C7_missing_params_response (schema : MCPAction) (hasFn : Bool)
    (params : List (String × JValue)) (p : String)
    (h : missingParamsOf schema.parameters.required params ≠ []) :
    dispatch schema hasFn params
      = .response 400 (.obj [("error", .str "Missing required parameters"),
          ("missingParams",
            .arr ((missingParamsOf schema.parameters.required params).map JValue.str))])
    ∧ isInvoke (dispatch schema hasFn params) = false
    ∧ statusOf (dispatch schema hasFn params) = some 400
    ∧ (p ∈ missingParamsOf schema.parameters.required params
        ↔ p ∈ schema.parameters.required ∧ params.lookup p = none) := by
  have hd := dispatch_missing schema hasFn params h
  exact ⟨hd, by rw [hd]; rfl, by rw [hd]; rfl, mem_missingParamsOf⟩

/-- Witness for C7: `transfer` invoked without `amount`. -/
theorem C7_witness :
    dispatch (abiFunctionToMCPAction transferFn) true [("to", .str "0xabc")]
      = .response 400 (.obj [("error", .str "Missing required parameters"),
          ("missingParams", .arr [.str "amount"])])
    ∧ ("amount" ∈ missingParamsOf (abiFunctionToMCPAction transferFn).parameters.required
          [("to", .str "0xabc")]
        ↔ "amount" ∈ (abiFunctionToMCPAction transferFn).parameters.required
            ∧ List.lookup "amount" [("to", JValue.str "0xabc")] = none) := by
  have h := C7_missing_params_response (abiFunctionToMCPAction transferFn) true
      [("to", .str "0xabc")] "amount" (by decide)
  exact ⟨h.1, h.2.2.2⟩

-- C8

/-- C8: the GPT (tool-call) schema is the element-wise envelope of the MCP
(direct) schema: equal lengths, and each element wraps exactly the
corresponding MCP action's name, description and parameters under a
`function` field with discriminator `type = function`. -/
theorem C8_gpt_is_envelope_of_mcp (abi : List ABIFunction) (i : Nat)
    (hi : i < (abiToMCPSchema abi).length) (hi' : i < (abiToGPTActionSchema abi).length) :
    (abiToGPTActionSchema abi).length = (abiToMCPSchema abi).length
    ∧ (abiToGPTActionSchema abi).get ⟨i, hi'⟩
        = { type := "function", function := (abiToMCPSchema abi).get ⟨i, hi⟩ }
    ∧ ((abiToGPTActionSchema abi).get ⟨i, hi'⟩).type = "function"
    ∧ ((abiToGPTActionSchema abi).get ⟨i, hi'⟩).function.name
        = ((abiToMCPSchema abi).get ⟨i, hi⟩).name
    ∧ ((abiToGPTActionSchema abi).get ⟨i, hi'⟩).function.description
        = ((abiToMCPSchema abi).get ⟨i, hi⟩).description
    ∧ ((abiToGPTActionSchema abi).get ⟨i, hi'⟩).function.parameters
        = ((abiToMCPSchema abi).get ⟨i, hi⟩).parameters := by
  have hget : (abiToGPTActionSchema abi).get ⟨i, hi'⟩
      = mcpActionToGPTAction ((abiToMCPSchema abi).get ⟨i, hi⟩) := by
    simp [abiToGPTActionSchema, List.get_eq_getElem, List.getElem_map]
  refine ⟨by simp [abiToGPTActionSchema], ?_, by rw [hget]; rfl, by rw [hget]; rfl,
    by rw [hget]; rfl, by rw [hget]; rfl⟩
  rw [hget]
  rfl

/-- Witness for C8 on the one-function `transfer` ABI. -/
theorem C8_witness :
    (abiToGPTActionSchema [transferFn]).length = (abiToMCPSchema [transferFn]).length
    ∧ (abiToGPTActionSchema [transferFn]).get ⟨0, by decide⟩
        = { type := "function", function := (abiToMCPSchema [transferFn]).get ⟨0, by decide⟩ }
    ∧ ((abiToGPTActionSchema [transferFn]).get ⟨0, by decide⟩).function.name = "transfer" := by
  have h := C8_gpt_is_envelope_of_mcp [transferFn] 0 (by decide) (by decide)
  exact ⟨h.1, h.2.1, h.2.2.2.1.trans rfl⟩

-- C9

/-- C9: the i-th compiled action comes from the i-th retained ABI function,
and its `required` list is exactly the names of that function's inputs, one
per input, in declaration order. -/
theorem C9_required_lists_inputs (abi : List ABIFunction) (i : Nat)
    (hi : i < (abiToMCPSchema abi).length) (hi' : i < (schemaFilter abi).length) :
    (abiToMCPSchema abi).length = (schemaFilter abi).length
    ∧ (abiToMCPSchema abi).get ⟨i, hi⟩
        = abiFunctionToMCPAction ((schemaFilter abi).get ⟨i, hi'⟩)
    ∧ ((abiToMCPSchema abi).get ⟨i, hi⟩).parameters.required
        = ((schemaFilter abi).get ⟨i, hi'⟩).inputs.map ABIParam.name
    ∧ ((abiToMCPSchema abi).get ⟨i, hi⟩).parameters.required.length
        = ((schemaFilter abi).get ⟨i, hi'⟩).inputs.length
    ∧ (schemaFilter abi).get ⟨i, hi'⟩ ∈ abi := by
  have hget : (abiToMCPSchema abi).get ⟨i, hi⟩
      = abiFunctionToMCPAction ((schemaFilter abi).get ⟨i, hi'⟩) := by
    simp [abiToMCPSchema, List.get_eq_getElem, List.getElem_map]
  refine ⟨by simp [abiToMCPSchema], hget, by rw [hget]; rfl,
    by rw [hget]; simp [abiFunctionToMCPAction], ?_⟩
  have hmem : (schemaFilter abi).get ⟨i, hi'⟩ ∈ schemaFilter abi :=
    List.get_mem (schemaFilter abi) i hi'
  exact List.mem_of_mem_filter hmem

/-- Witness for C9 on the one-function `transfer` ABI. -/
theorem C9_witness :
    (abiToMCPSchema [transferFn]).length = (schemaFilter [transferFn]).length
    ∧ (abiToMCPSchema [transferFn]).get ⟨0, by decide⟩
        = abiFunctionToMCPAction ((schemaFilter [transferFn]).get ⟨0, by decide⟩)
    ∧ ((abiToMCPSchema [transferFn]).get ⟨0, by decide⟩).parameters.required
        = ["to", "amount"] := by
  have h := C9_required_lists_inputs [transferFn] 0 (by decide) (by decide)
  exact ⟨h.1, h.2.1, h.2.2.1.trans rfl⟩

-- C10

/-- C10: a required argument bound to JSON null counts as present — the
missing filter only reacts to strictly absent keys — so validation passes
when all required names are bound (some to null), and for a read action the
null values are forwarded positionally to the contract call. -/
theorem C10_null_counts_as_present (schema : MCPAction) (params : List (String × JValue))
    (p : String)
    (h : ∀ q ∈ schema.parameters.required, (params.lookup q).isSome = true) :
    missingParamsOf schema.parameters.required params = []
    ∧ (params.lookup p = some JValue.null
        → p ∉ missingParamsOf schema.parameters.required params)
    ∧ (isStateChanging schema = false →
        dispatch schema true params
          = .invoke schema.name (schema.parameters.required.map fun q => params.lookup q)) := by
  have hmiss := missingParamsOf_eq_nil h
  refine ⟨hmiss, fun hp hmem => ?_, fun hsc => ?_⟩
  · have := (mem_missingParamsOf.mp hmem).2
    rw [hp] at this
    exact Option.noConfusion this
  · rw [dispatch_complete schema params hmiss, if_neg (by simp [hsc])]

/-- Witness for C10: `balanceOf` invoked with `owner` bound to null passes
validation and null is forwarded. -/
theorem C10_witness :
    missingParamsOf (abiFunctionToMCPAction balanceOfFn).parameters.required
        [("owner", JValue.null)] = []
    ∧ dispatch (abiFunctionToMCPAction balanceOfFn) true [("owner", JValue.null)]
        = .invoke "balanceOf" [some JValue.null] := by
  have h := C10_null_counts_as_present (abiFunctionToMCPAction balanceOfFn)
      [("owner", JValue.null)] "owner" (by decide)
  exact ⟨h.1, h.2.2 (by rfl)⟩
